import Mathlib

/-!
Shallow embedding of the minishell pipeline executor (src/minishell.c).

Strings are modelled as `List Char` (the bytes of a C string up to its NUL
terminator).  Pure string manipulation (`trim`, `verify_input`,
`parse_single_command`, `parse_input`) is translated function by function
from the C source.  The process/descriptor side of `execute_commands` is
modelled as explicit action traces: one trace for the parent process and one
per forked child, together with small-step interpretations of those traces
(the parent's open pipe-descriptor table, the child's stdin/stdout sources).
-/

namespace Minishell

/-- `#define MAX_LINE 1024` (minishell.c line 11). -/
def MAX_LINE : Nat := 1024

/-- `#define MAX_ARGS 32` (minishell.c line 12). -/
def MAX_ARGS : Nat := 32

/-- `#define MAX_COMMANDS 8` (minishell.c line 13). -/
def MAX_COMMANDS : Nat := 8

/-- C `isspace` on the default locale: space, tab, newline, vertical tab,
form feed, carriage return. -/
def isspace (c : Char) : Bool :=
  c = ' ' || c = '\t' || c = '\n' || c = Char.ofNat 11 || c = Char.ofNat 12 || c = '\r'

/-- Remove the trailing characters of `l` satisfying `p`
(the C loop `while (end > str && isspace(*end)) end--; *(end+1) = 0`,
applied to a list whose first character does not satisfy `p`). -/
def dropTrailing (p : Char → Bool) (l : List Char) : List Char :=
  (l.reverse.dropWhile p).reverse

/-- `trim` (minishell.c lines 32-55).  The C function advances a *local*
pointer over the leading whitespace and then writes a NUL terminator after
the last non-space character; the caller's buffer therefore keeps its
leading whitespace and only loses trailing whitespace.  An all-whitespace
(or empty) string is returned unchanged. -/
def trim (str : List Char) : List Char :=
  let rest := str.dropWhile isspace
  if rest = [] then str
  else str.takeWhile isspace ++ dropTrailing isspace rest

/-- Accumulator pass for `tokenize`: `acc` holds the characters of the
current (partial) token in reverse. -/
def tokenizeAux (delim : Char → Bool) : List Char → List Char → List (List Char)
  | [], acc => if acc = [] then [] else [acc.reverse]
  | c :: rest, acc =>
    if delim c then
      if acc = [] then tokenizeAux delim rest []
      else acc.reverse :: tokenizeAux delim rest []
    else tokenizeAux delim rest (c :: acc)

/-- `strtok`-style tokenisation: maximal runs of characters that are not
delimiters, in order; empty tokens never occur.  Used with delimiter set
`"|"` in `parse_input` and `" "` in `parse_single_command`. -/
def tokenize (delim : Char → Bool) (l : List Char) : List (List Char) :=
  tokenizeAux delim l []

/-- `strspn(input, set)`: length of the longest prefix of characters
drawn from `set`. -/
def spn (p : Char → Bool) (l : List Char) : Nat := (l.takeWhile p).length

/-- `strstr(input, "||") != NULL`: two adjacent pipe characters occur. -/
def hasDoublePipe : List Char → Bool
  | '|' :: '|' :: _ => true
  | _ :: rest => hasDoublePipe rest
  | [] => false

/-- The distinct failure reasons of `verify_input`, one per `printf`
branch (minishell.c lines 121-180). -/
inductive VError
  | emptyOrSpaces
  | tooLong
  | edgePipe
  | doublePipe
  | onlyPipesSpaces
  | tooMany
  deriving DecidableEq, Repr

/-- The guarded character access `input[input_length - 1]` of
`verify_input` (minishell.c line 126), as a total function.  For the
empty string the C code reads `input[(size_t)0 - 1]`, out of bounds;
the total embedding yields `none` there. -/
def lastCharAccess (input : List Char) : Option Char :=
  input.get? (input.length - 1)

/-- The newline-stripping step of `verify_input` (minishell.c
lines 125-129), performed before any other check. -/
def stripNewline (input : List Char) : List Char :=
  match lastCharAccess input with
  | some c => if c = '\n' then input.dropLast else input
  | none => input

/-- The six validation checks of `verify_input` (minishell.c
lines 131-179), in source order, applied after `stripNewline`. -/
def verify_checks (input : List Char) : Except VError (List Char) :=
  if input.length = 0 ∨ spn (fun c => c = ' ') input = input.length then
    Except.error VError.emptyOrSpaces
  else if MAX_LINE ≤ input.length then
    Except.error VError.tooLong
  else if input.head? = some '|' ∨ lastCharAccess input = some '|' then
    Except.error VError.edgePipe
  else if hasDoublePipe input then
    Except.error VError.doublePipe
  else if spn (fun c => c = ' ' || c = '|') input = input.length then
    Except.error VError.onlyPipesSpaces
  else if MAX_COMMANDS ≤ (input.filter (fun c => c = '|')).length then
    Except.error VError.tooMany
  else
    Except.ok input

/-- `verify_input` (minishell.c lines 121-180).  Returns the possibly
newline-stripped input on success (the C function edits the buffer in
place and returns `true`). -/
def verify_input (input : List Char) : Except VError (List Char) :=
  verify_checks (stripNewline input)

/-- The `Command` struct (minishell.c lines 16-22).  `args` models the
NULL-terminated `char **args` array as the list of its entries before the
first NULL; a NULL `command` (an all-space segment, where `strtok` returns
NULL immediately) gives `command = none` and an empty `args`. -/
structure Command where
  command : Option (List Char)
  args : List (List Char)
  inputFile : Option (List Char)
  outputFile : Option (List Char)
  deriving DecidableEq, Repr

/-- The token-scanning loop of `parse_single_command` (minishell.c
lines 91-115): `argCount` is the number of filled `args` slots, a bare
`<` consumes the next token as `inputFile` (NULL if there is none), a
bare `>` likewise for `outputFile`, and any other token is appended to
`args` only while `argCount < MAX_ARGS - 1`. -/
def parseRest :
    List (List Char) → Nat → List (List Char) →
    Option (List Char) → Option (List Char) →
    List (List Char) × Option (List Char) × Option (List Char)
  | [], _, args, inF, outF => (args, inF, outF)
  | [t], argCount, args, inF, outF =>
    if t = ['<'] then (args, none, outF)
    else if t = ['>'] then (args, inF, none)
    else if argCount < MAX_ARGS - 1 then (args ++ [t], inF, outF)
    else (args, inF, outF)
  | t :: f :: rest, argCount, args, inF, outF =>
    if t = ['<'] then parseRest rest argCount args (some f) outF
    else if t = ['>'] then parseRest rest argCount args inF (some f)
    else if argCount < MAX_ARGS - 1 then
      parseRest (f :: rest) (argCount + 1) (args ++ [t]) inF outF
    else
      parseRest (f :: rest) argCount args inF outF

/-- `parse_single_command` (minishell.c lines 77-118): tokenize the
segment on single spaces, take the first token as both `command` and
`args[0]`, and scan the remaining tokens with `parseRest`. -/
def parse_single_command (segment : List Char) : Command :=
  match tokenize (fun c => c = ' ') segment with
  | [] => { command := none, args := [], inputFile := none, outputFile := none }
  | t :: rest =>
    let r := parseRest rest 1 [t] none none
    { command := some t, args := r.1, inputFile := r.2.1, outputFile := r.2.2 }

/-- `parse_input` (minishell.c lines 183-212): trim, validate, split the
validated text on `|` (keeping at most `MAX_COMMANDS` segments), and parse
each segment.  A line failing validation yields the empty command list
(`*numCommands = 0`). -/
def parse_input (input : List Char) : List Command :=
  let trimmed := trim input
  match verify_input trimmed with
  | Except.error _ => []
  | Except.ok validated =>
    ((tokenize (fun c => c = '|') validated).take MAX_COMMANDS).map parse_single_command

/-! ## Executor: parent process (minishell.c lines 215-341, 343-402) -/

/-- Observable actions of the parent process inside `execute_commands`
and `main`.  `createPipe j` is a successful `pipe()` call filling
`pipes[j]`; `closeRead j` / `closeWrite j` are `close(pipes[j].read_fd)` /
`close(pipes[j].write_fd)`; `exitFailure` is `exit(EXIT_FAILURE)`, which
terminates the process (the OS then closes every descriptor it held). -/
inductive ParentAction
  | createPipe (j : Nat)
  | spawnChild (i : Nat)
  | closeRead (j : Nat)
  | closeWrite (j : Nat)
  | reportPipeFailure
  | freePipes
  | exitFailure
  | waitAll
  deriving DecidableEq, Repr

/-- The pipe-creation loop of `execute_commands` (minishell.c
lines 229-239), from index `j` with `n` pipes left to create.  `pipeOk`
tells whether the OS-level `pipe()` call at a given index succeeds.  On
failure the C code runs `perror`, `free(pipes)` and `exit(EXIT_FAILURE)`;
the returned flag is `false` exactly when that happened. -/
def pipeLoop (pipeOk : Nat → Bool) : Nat → Nat → List ParentAction × Bool
  | _, 0 => ([], true)
  | j, n + 1 =>
    if pipeOk j then
      let r := pipeLoop pipeOk (j + 1) n
      (ParentAction.createPipe j :: r.1, r.2)
    else
      ([ParentAction.reportPipeFailure, ParentAction.freePipes,
        ParentAction.exitFailure], false)

/-- The parent-side trace of `execute_commands` (minishell.c
lines 215-341) for `K` commands: create `K - 1` pipes, fork `K` children
(the fork loop, lines 245-326), close every pipe descriptor
(lines 329-333), free the array and wait for all children
(lines 336-340).  The flag is `false` when pipe creation failed and the
process exited instead. -/
def execute_commands (K : Nat) (pipeOk : Nat → Bool) : List ParentAction × Bool :=
  let r := pipeLoop pipeOk 0 (K - 1)
  if r.2 then
    (r.1 ++ (List.range K).map ParentAction.spawnChild
        ++ (List.range (K - 1)).flatMap
            (fun j => [ParentAction.closeRead j, ParentAction.closeWrite j])
        ++ [ParentAction.freePipes, ParentAction.waitAll], true)
  else r

/-- A pipe endpoint held by the parent: `(pipe index, isWriteEnd)`. -/
abbrev Endpoint := Nat × Bool

/-- `close` on the parent's descriptor table: removes the first matching
open endpoint (a second `close` of the same endpoint is a no-op on the
table, as the descriptor is already gone). -/
def closeFd (e : Endpoint) : List Endpoint → List Endpoint
  | [] => []
  | x :: rest => if x = e then rest else x :: closeFd e rest

/-- Effect of one parent action on the parent's table of open pipe
endpoints.  `exitFailure` empties the table: a terminated process holds
no descriptors. -/
def parentStep (tbl : List Endpoint) : ParentAction → List Endpoint
  | ParentAction.createPipe j => tbl ++ [(j, false), (j, true)]
  | ParentAction.closeRead j => closeFd (j, false) tbl
  | ParentAction.closeWrite j => closeFd (j, true) tbl
  | ParentAction.exitFailure => []
  | _ => tbl

/-- Run a parent trace over a descriptor table. -/
def runParent (tbl : List Endpoint) (tr : List ParentAction) : List Endpoint :=
  tr.foldl parentStep tbl

/-- `isSpawn a` holds exactly for `spawnChild` actions. -/
def isSpawn : ParentAction → Bool
  | ParentAction.spawnChild _ => true
  | _ => false

/-- `isPipeClose a` holds for the parent's `close` calls on pipe ends. -/
def isPipeClose : ParentAction → Bool
  | ParentAction.closeRead _ => true
  | ParentAction.closeWrite _ => true
  | _ => false

/-! ## Executor: child process (minishell.c lines 248-325) -/

/-- Observable actions of a forked child between `fork()` and `execve`:
pipe-descriptor closes and `dup2` wirings, file-redirect opens+`dup2`s,
the `execve` call, and the failure path (report, close the duplicated
standard descriptors, `exit(EXIT_FAILURE)`). -/
inductive FdAction
  | closePipeRead (j : Nat)
  | closePipeWrite (j : Nat)
  | dupPipeReadToStdin (j : Nat)
  | dupPipeWriteToStdout (j : Nat)
  | dupFileToStdin (p : List Char)
  | dupFileToStdout (p : List Char)
  | reportOpenFail
  | closeStdin
  | closeStdout
  | childExitFailure
  | execve (prog : Option (List Char)) (args : List (List Char))
  deriving DecidableEq, Repr

/-- The close loop of the child (minishell.c lines 254-261): close both
ends of every pipe `j` with `j != i - 1 && j != i`, where `i` and `j` are
C `int`s (for `i = 0` the comparison is against `-1`, which no valid `j`
equals). -/
def closeOthers (K i : Nat) : List FdAction :=
  (List.range (K - 1)).flatMap fun j =>
    if (j : Int) ≠ (i : Int) - 1 ∧ (j : Int) ≠ (i : Int) then
      [FdAction.closePipeRead j, FdAction.closePipeWrite j]
    else []

/-- Stdin pipe wiring of the child (minishell.c lines 264-268): if not
the first command, close the previous pipe's write end, then `dup2` its
read end onto stdin. -/
def stdinWiring (i : Nat) : List FdAction :=
  if i ≠ 0 then
    [FdAction.closePipeWrite (i - 1), FdAction.dupPipeReadToStdin (i - 1)]
  else []

/-- Stdout pipe wiring of the child (minishell.c lines 271-275): if not
the last command, close the next pipe's read end, then `dup2` its write
end onto stdout. -/
def stdoutWiring (K i : Nat) : List FdAction :=
  if i ≠ K - 1 then
    [FdAction.closePipeRead i, FdAction.dupPipeWriteToStdout i]
  else []

/-- Input-redirect handling (minishell.c lines 279-289).  `oR` tells
whether `fopen(path, "r")` succeeds.  On success the file descriptor is
`dup2`-ed onto stdin; on failure the child reports and exits (flag
`false`). -/
def inputRedirActs (oR : List Char → Bool) :
    Option (List Char) → List FdAction × Bool
  | none => ([], true)
  | some p =>
    if oR p then ([FdAction.dupFileToStdin p], true)
    else ([FdAction.reportOpenFail, FdAction.childExitFailure], false)

/-- Output-redirect handling (minishell.c lines 291-301), analogous with
`fopen(path, "w")`. -/
def outputRedirActs (oW : List Char → Bool) :
    Option (List Char) → List FdAction × Bool
  | none => ([], true)
  | some p =>
    if oW p then ([FdAction.dupFileToStdout p], true)
    else ([FdAction.reportOpenFail, FdAction.childExitFailure], false)

/-- The `execve` call and its failure path (minishell.c lines 305-324):
on failure, close stdin if it was pipe-duplicated (`i != 0`), close
stdout if it was (`i != K - 1`), and exit with failure. -/
def execActs (K i : Nat) (cmd : Command) (eOk : Bool) : List FdAction :=
  if eOk then [FdAction.execve cmd.command cmd.args]
  else
    [FdAction.execve cmd.command cmd.args]
      ++ (if i ≠ 0 then [FdAction.closeStdin] else [])
      ++ (if i ≠ K - 1 then [FdAction.closeStdout] else [])
      ++ [FdAction.childExitFailure]

/-- Redirect handling followed by `execve` (minishell.c lines 279-324):
a failed input open ends the child before the output redirect is
attempted; a failed output open ends it before `execve`. -/
def redirAndExec (K i : Nat) (cmd : Command)
    (oR oW : List Char → Bool) (eOk : Bool) : List FdAction :=
  match inputRedirActs oR cmd.inputFile with
  | (ia, false) => ia
  | (ia, true) =>
    match outputRedirActs oW cmd.outputFile with
    | (oa, false) => ia ++ oa
    | (oa, true) => ia ++ oa ++ execActs K i cmd eOk

/-- The full action trace of the child for stage `i` of `K`
(minishell.c lines 248-325): close non-adjacent pipe ends, wire stdin
from the previous pipe, wire stdout to the next pipe, apply redirects,
exec. -/
def child_setup (K i : Nat) (cmd : Command)
    (oR oW : List Char → Bool) (eOk : Bool) : List FdAction :=
  closeOthers K i ++ stdinWiring i ++ stdoutWiring K i
    ++ redirAndExec K i cmd oR oW eOk

/-- `isPipeAction a` holds for the four actions that touch pipe
descriptors. -/
def isPipeAction : FdAction → Bool
  | FdAction.closePipeRead _ => true
  | FdAction.closePipeWrite _ => true
  | FdAction.dupPipeReadToStdin _ => true
  | FdAction.dupPipeWriteToStdout _ => true
  | _ => false

/-- `a` and `b` occur adjacently, in this order, in `l`. -/
def adjacentIn (a b : FdAction) (l : List FdAction) : Prop :=
  ∃ pre post, l = pre ++ a :: b :: post

/-- Where a child's standard descriptor points. -/
inductive StdSrc
  | inherited
  | pipeR (j : Nat)
  | pipeW (j : Nat)
  | file (p : List Char)
  | closed
  deriving DecidableEq, Repr

/-- Effect of one child action on the pair (stdin source, stdout
source). -/
def childStdStep (s : StdSrc × StdSrc) : FdAction → StdSrc × StdSrc
  | FdAction.dupPipeReadToStdin j => (StdSrc.pipeR j, s.2)
  | FdAction.dupPipeWriteToStdout j => (s.1, StdSrc.pipeW j)
  | FdAction.dupFileToStdin p => (StdSrc.file p, s.2)
  | FdAction.dupFileToStdout p => (s.1, StdSrc.file p)
  | FdAction.closeStdin => (StdSrc.closed, s.2)
  | FdAction.closeStdout => (s.1, StdSrc.closed)
  | _ => s

/-- Final (stdin, stdout) sources after running a child trace from the
inherited descriptors. -/
def runChildStd (tr : List FdAction) : StdSrc × StdSrc :=
  tr.foldl childStdStep (StdSrc.inherited, StdSrc.inherited)

/-- `touchesStdin a` holds for actions that change the stdin source. -/
def touchesStdin : FdAction → Bool
  | FdAction.dupPipeReadToStdin _ => true
  | FdAction.dupFileToStdin _ => true
  | FdAction.closeStdin => true
  | _ => false

/-- `touchesStdout a` holds for actions that change the stdout source. -/
def touchesStdout : FdAction → Bool
  | FdAction.dupPipeWriteToStdout _ => true
  | FdAction.dupFileToStdout _ => true
  | FdAction.closeStdout => true
  | _ => false

/-- `isInputFileDup a` holds exactly for `dupFileToStdin`. -/
def isInputFileDup : FdAction → Bool
  | FdAction.dupFileToStdin _ => true
  | _ => false

/-- `isOutputFileDup a` holds exactly for `dupFileToStdout`. -/
def isOutputFileDup : FdAction → Bool
  | FdAction.dupFileToStdout _ => true
  | _ => false

/-! ## The main read loop (minishell.c lines 343-402) -/

/-- `input[strcspn(input, "\n")] = '\0'` (minishell.c line 366):
truncate the line at its first newline. -/
def stripAtNewline (l : List Char) : List Char :=
  l.takeWhile (fun c => c ≠ '\n')

/-- `PTRDIFF_MAX` on the LP64 reference platform. -/
def PTRDIFF_MAX : Nat := 2 ^ 63 - 1

/-- The byte count requested by
`malloc((*numCommands - 1) * sizeof(PipeFD))` (minishell.c line 220):
the `int` value `numCommands - 1` is converted to the 64-bit unsigned
`size_t` and multiplied by `sizeof(PipeFD) = 8`. -/
def pipeArrayBytes (numCommands : Nat) : Nat :=
  ((((numCommands : Int) - 1) * 8) % (2 ^ 64 : Int)).toNat

/-- Whether the `malloc` request can succeed.  glibc fails any request
above `PTRDIFF_MAX`; feasible requests are modelled as succeeding. -/
def malloc_ok (bytes : Nat) : Bool := bytes ≤ PTRDIFF_MAX

/-- Outcome of one iteration of `main`'s read loop: either control
returns to the prompt (with the parent-side execution trace), or the
process terminated via `exit(EXIT_FAILURE)`. -/
inductive LoopOutcome
  | continues (tr : List ParentAction)
  | terminates
  deriving DecidableEq, Repr

/-- One iteration of the `while (1)` loop in `main` (minishell.c
lines 355-393): strip the newline, parse, and call `execute_commands`
unconditionally — even when parsing produced zero commands.  If the
pipe-array `malloc` or a `pipe()` call fails, `execute_commands` exits
the whole process. -/
def main_iteration (rawLine : List Char) (pipeOk : Nat → Bool) : LoopOutcome :=
  let cmds := parse_input (stripAtNewline rawLine)
  if malloc_ok (pipeArrayBytes cmds.length) then
    if (execute_commands cmds.length pipeOk).2 then
      LoopOutcome.continues (execute_commands cmds.length pipeOk).1
    else LoopOutcome.terminates
  else LoopOutcome.terminates

/-- A stage segment of 32 whitespace-separated one-character tokens,
used to exercise the argument cap. -/
def seg32 : List Char :=
  ("a b c d e f g h i j k l m n o p q r s t u v w x y z 0 1 2 3 4 5").data

/-- A plain one-word command with no redirects, used as a concrete stage. -/
def cmdEx : Command :=
  { command := some ['c'], args := [['c']], inputFile := none, outputFile := none }

/-- A concrete stage with both redirects set. -/
def cmdRedir : Command :=
  { command := some (("c").data), args := [("c").data],
    inputFile := some (("in").data), outputFile := some (("out").data) }

/-! ## Theorems -/

/-- Elements of the pipe-wiring prefix of a child trace are all pipe
actions. -/
theorem wiring_all_pipe (K i : Nat) :
    ∀ a ∈ closeOthers K i ++ stdinWiring i ++ stdoutWiring K i,
      isPipeAction a = true := by
  intro a ha
  simp only [List.mem_append] at ha
  rcases ha with (ha | ha) | ha
  · simp only [closeOthers, List.mem_flatMap] at ha
    obtain ⟨j, -, hj⟩ := ha
    split at hj
    · simp only [List.mem_cons, List.not_mem_nil, or_false] at hj
      rcases hj with rfl | rfl <;> rfl
    · cases hj
  · unfold stdinWiring at ha
    split at ha
    · simp only [List.mem_cons, List.not_mem_nil, or_false] at ha
      rcases ha with rfl | rfl <;> rfl
    · cases ha
  · unfold stdoutWiring at ha
    split at ha
    · simp only [List.mem_cons, List.not_mem_nil, or_false] at ha
      rcases ha with rfl | rfl <;> rfl
    · cases ha

/-- Membership in a conditional singleton list forces equality. -/
theorem mem_ite_singleton {α : Type} {c : Prop} [Decidable c] {a x : α}
    (h : a ∈ (if c then [x] else ([] : List α))) : a = x := by
  split at h
  · simpa using h
  · cases h

/-- Elements of the exec step are neither pipe actions nor file-redirect
duplications. -/
theorem execActs_classify (K i : Nat) (cmd : Command) (eOk : Bool) :
    ∀ a ∈ execActs K i cmd eOk,
      isPipeAction a = false ∧ isInputFileDup a = false ∧
        isOutputFileDup a = false := by
  intro a ha
  unfold execActs at ha
  split at ha
  · simp only [List.mem_cons, List.not_mem_nil, or_false] at ha
    subst ha; exact ⟨rfl, rfl, rfl⟩
  · simp only [List.cons_append, List.nil_append, List.append_assoc,
      List.mem_cons, List.mem_append, List.not_mem_nil, or_false] at ha
    rcases ha with rfl | ha | ha | rfl
    · exact ⟨rfl, rfl, rfl⟩
    · rcases mem_ite_singleton ha with rfl; exact ⟨rfl, rfl, rfl⟩
    · rcases mem_ite_singleton ha with rfl; exact ⟨rfl, rfl, rfl⟩
    · exact ⟨rfl, rfl, rfl⟩

/-- Elements of the redirect-and-exec tail of a child trace are never
pipe actions; and when the corresponding redirect is NULL, no
file-to-stdin (resp. file-to-stdout) duplication occurs in it. -/
theorem redirAndExec_classify (K i : Nat) (cmd : Command)
    (oR oW : List Char → Bool) (eOk : Bool) :
    ∀ a ∈ redirAndExec K i cmd oR oW eOk,
      isPipeAction a = false ∧
      (cmd.inputFile = none → isInputFileDup a = false) ∧
      (cmd.outputFile = none → isOutputFileDup a = false) := by
  intro a ha
  rcases hin : cmd.inputFile with _ | p
  · rcases hout : cmd.outputFile with _ | q
    · simp [redirAndExec, inputRedirActs, outputRedirActs, hin, hout] at ha
      obtain ⟨h1, h2, h3⟩ := execActs_classify K i cmd eOk a ha
      exact ⟨h1, fun _ => h2, fun _ => h3⟩
    · by_cases hq : oW q = true
      · simp [redirAndExec, inputRedirActs, outputRedirActs, hin, hout, hq] at ha
        rcases ha with rfl | ha
        · exact ⟨rfl, fun _ => rfl, fun h => Option.noConfusion h⟩
        · obtain ⟨h1, h2, h3⟩ := execActs_classify K i cmd eOk a ha
          exact ⟨h1, fun _ => h2, fun _ => h3⟩
      · simp [redirAndExec, inputRedirActs, outputRedirActs, hin, hout, hq] at ha
        rcases ha with rfl | rfl
        · exact ⟨rfl, fun _ => rfl, fun _ => rfl⟩
        · exact ⟨rfl, fun _ => rfl, fun _ => rfl⟩
  · by_cases hp : oR p = true
    · rcases hout : cmd.outputFile with _ | q
      · simp [redirAndExec, inputRedirActs, outputRedirActs, hin, hout, hp] at ha
        rcases ha with rfl | ha
        · exact ⟨rfl, fun h => Option.noConfusion h, fun _ => rfl⟩
        · obtain ⟨h1, h2, h3⟩ := execActs_classify K i cmd eOk a ha
          exact ⟨h1, fun _ => h2, fun _ => h3⟩
      · by_cases hq : oW q = true
        · simp [redirAndExec, inputRedirActs, outputRedirActs, hin, hout,
            hp, hq] at ha
          rcases ha with rfl | rfl | ha
          · exact ⟨rfl, fun h => Option.noConfusion h, fun h => Option.noConfusion h⟩
          · exact ⟨rfl, fun _ => rfl, fun h => Option.noConfusion h⟩
          · obtain ⟨h1, h2, h3⟩ := execActs_classify K i cmd eOk a ha
            exact ⟨h1, fun _ => h2, fun _ => h3⟩
        · simp [redirAndExec, inputRedirActs, outputRedirActs, hin, hout,
            hp, hq] at ha
          rcases ha with rfl | rfl | rfl
          · exact ⟨rfl, fun h => Option.noConfusion h, fun _ => rfl⟩
          · exact ⟨rfl, fun _ => rfl, fun _ => rfl⟩
          · exact ⟨rfl, fun _ => rfl, fun _ => rfl⟩
    · simp [redirAndExec, inputRedirActs, hin, hp] at ha
      rcases ha with rfl | rfl
      · exact ⟨rfl, fun _ => rfl, fun _ => rfl⟩
      · exact ⟨rfl, fun _ => rfl, fun _ => rfl⟩

/-- C10: for the empty input line, `verify_input` performs the guarded
character access `input[input_length - 1]` (inside `stripNewline`) before
its emptiness check (the first branch of `verify_checks`); with length 0
the access is out of bounds and in the total embedding yields no value,
so the emptiness check does not protect it.  The empty line does reach
`verify_input`: `main`'s newline strip turns a bare `"\n"` into the empty
string and `trim` leaves it empty. -/
theorem verify_empty_input_unguarded_index :
    lastCharAccess ([] : List Char) = none ∧
    (∀ input : List Char, verify_input input = verify_checks (stripNewline input)) ∧
    stripNewline ([] : List Char) = ([] : List Char) ∧
    stripAtNewline (("\n").data) = ([] : List Char) ∧
    trim ([] : List Char) = ([] : List Char) ∧
    verify_input ([] : List Char) = Except.error VError.emptyOrSpaces :=
  ⟨rfl, fun _ => rfl, rfl, rfl, rfl, rfl⟩

/-- C1 (code bug): a line that fails validation yields zero commands, but
`main` still calls `execute_commands` with `numCommands = 0`; the pipe
array `malloc` then requests `(0 - 1) * sizeof(PipeFD) = 2^64 - 8` bytes,
which fails, and `exit(EXIT_FAILURE)` terminates the whole shell — the
read loop does not continue.  Evaluated at the rejected line `"|"`. -/
theorem failed_line_terminates_program :
    parse_input (("|").data) = [] ∧
    pipeArrayBytes 0 = 2 ^ 64 - 8 ∧
    malloc_ok (pipeArrayBytes 0) = false ∧
    main_iteration (("|").data) (fun _ => true) = LoopOutcome.terminates := by
  exact ⟨rfl, by decide, by decide, rfl⟩

/-- C2 (code bug): `trim` never removes leading whitespace from the
caller's buffer, so the line `" | ls"` does not start with `|` when
`verify_input` looks at it; the line is accepted, parses into two
commands, and the executor forks two processes — it is not rejected with
`MalformedPipe` and does not spawn zero processes. -/
theorem space_pipe_line_accepted_and_spawns :
    trim ((" | ls").data) = (" | ls").data ∧
    verify_input ((" | ls").data) = Except.ok ((" | ls").data) ∧
    (parse_input ((" | ls").data)).length = 2 ∧
    main_iteration ((" | ls").data) (fun _ => true)
      = LoopOutcome.continues (execute_commands 2 (fun _ => true)).1 ∧
    (((execute_commands 2 (fun _ => true)).1).filter isSpawn).length = 2 :=
  ⟨rfl, rfl, rfl, rfl, rfl⟩

/-- C3 (code bug): the validator accepts `"a | | b"` (its comment claims
to catch "improperly placed spaces around pipes" but the check only
looks for the adjacent substring `"||"`), and the middle all-space
segment parses to a stage with NULL program and empty argv, which is
handed to the executor and reaches `execve` as `execve(NULL, {NULL})`. -/
theorem empty_stage_reaches_executor :
    verify_input (trim (("a | | b").data)) = Except.ok (("a | | b").data) ∧
    (parse_input (("a | | b").data)).length = 3 ∧
    (parse_input (("a | | b").data)).get? 1
      = some { command := none, args := [], inputFile := none, outputFile := none } ∧
    FdAction.execve none []
      ∈ child_setup 3 1
          { command := none, args := [], inputFile := none, outputFile := none }
          (fun _ => true) (fun _ => true) true := by
  refine ⟨rfl, rfl, rfl, ?_⟩
  decide

/-- C4 (counterexample): a stage segment of 32 tokens is not accepted in
full: the scanner only appends while `argCount < MAX_ARGS - 1`, so argv
keeps 31 tokens (including the program name) and the 32nd token `"5"` is
dropped — the cap is `MAX_ARGS - 1`, not `MAX_ARGS`. -/
theorem arg_cap_drops_32nd_token :
    (tokenize (fun c => c = ' ') seg32).length = 32 ∧
    ((parse_single_command seg32).args).length = 31 ∧
    (("5").data) ∉ (parse_single_command seg32).args := by
  refine ⟨rfl, rfl, ?_⟩
  decide

/-- C9 (counterexample): the segment `"a < <"` ends in a bare `<` with no
following token, yet its redirect path is not NULL/empty: the final `<`
is consumed as the *filename* of the preceding `<`, so `inputFile` is the
string `"<"` and the executor's input-redirect branch is taken. -/
theorem dangling_lt_consumed_as_filename :
    (parse_single_command (("a < <").data)).inputFile = some (("<").data) ∧
    FdAction.dupFileToStdin (("<").data)
      ∈ child_setup 1 0 (parse_single_command (("a < <").data))
          (fun _ => true) (fun _ => true) true := by
  refine ⟨rfl, ?_⟩
  decide

/-- The scanner invariant: if `args` has `n` entries and `n` is within
the cap, the resulting argument list stays within the cap
`MAX_ARGS - 1`. -/
theorem parseRest_args_le :
    ∀ (toks : List (List Char)) (n : Nat) (args : List (List Char))
      (inF outF : Option (List Char)),
      args.length = n → n ≤ MAX_ARGS - 1 →
      ((parseRest toks n args inF outF).1).length ≤ MAX_ARGS - 1
  | [], n, args, inF, outF, h, hle => by
    simp only [parseRest]; omega
  | [t], n, args, inF, outF, h, hle => by
    by_cases h1 : t = ['<']
    · simp only [parseRest, if_pos h1]; omega
    · by_cases h2 : t = ['>']
      · simp only [parseRest, if_neg h1, if_pos h2]; omega
      · by_cases h3 : n < MAX_ARGS - 1
        · simp only [parseRest, if_neg h1, if_neg h2, if_pos h3,
            List.length_append, List.length_cons, List.length_nil]
          omega
        · simp only [parseRest, if_neg h1, if_neg h2, if_neg h3]; omega
  | t :: f :: rest, n, args, inF, outF, h, hle => by
    by_cases h1 : t = ['<']
    · simp only [parseRest, if_pos h1]
      exact parseRest_args_le rest n args (some f) outF h hle
    · by_cases h2 : t = ['>']
      · simp only [parseRest, if_neg h1, if_pos h2]
        exact parseRest_args_le rest n args inF (some f) h hle
      · by_cases h3 : n < MAX_ARGS - 1
        · simp only [parseRest, if_neg h1, if_neg h2, if_pos h3]
          exact parseRest_args_le (f :: rest) (n + 1) (args ++ [t]) inF outF
            (by simp [h]) (by omega)
        · simp only [parseRest, if_neg h1, if_neg h2, if_neg h3]
          exact parseRest_args_le (f :: rest) n args inF outF h hle

/-- C4 (amended): for every stage segment the parser keeps at most
`MAX_ARGS - 1` tokens (31 in the reference sizing, including the program
name — one slot of the 32-entry array is reserved for the NULL
terminator); tokens beyond that cap are silently dropped, never reported
as an error. -/
theorem parser_arg_cap (segment : List Char) :
    ((parse_single_command segment).args).length ≤ MAX_ARGS - 1 := by
  rcases h : tokenize (fun c => c = ' ') segment with _ | ⟨t, rest⟩
  · simp [parse_single_command, h]
  · simp only [parse_single_command, h]
    exact parseRest_args_le rest 1 [t] none none rfl (by decide)

/-- C5: for every pipeline of `K` stages and stage index `i < K`, the
child for stage `i` closes both endpoints of every pipe whose index is
neither `i - 1` nor `i` (as C `int`s); when `i > 0` it closes
pipe `i-1`'s write end and immediately afterwards duplicates
pipe `i-1`'s read end onto stdin; when `i < K - 1` it closes pipe `i`'s
read end and immediately afterwards duplicates pipe `i`'s write end onto
stdout; and the whole trace splits into a prefix of pipe actions
followed by a tail (redirects and exec) containing no pipe action, so
all pipe wiring happens before `execve`. -/
theorem child_pipe_wiring (K i : Nat) (cmd : Command)
    (oR oW : List Char → Bool) (eOk : Bool) (hi : i < K) :
    (∀ j, j < K - 1 → (j : Int) ≠ (i : Int) - 1 → (j : Int) ≠ (i : Int) →
      FdAction.closePipeRead j ∈ child_setup K i cmd oR oW eOk ∧
      FdAction.closePipeWrite j ∈ child_setup K i cmd oR oW eOk) ∧
    (0 < i → adjacentIn (FdAction.closePipeWrite (i - 1))
        (FdAction.dupPipeReadToStdin (i - 1)) (child_setup K i cmd oR oW eOk)) ∧
    (i < K - 1 → adjacentIn (FdAction.closePipeRead i)
        (FdAction.dupPipeWriteToStdout i) (child_setup K i cmd oR oW eOk)) ∧
    (∃ wire tail, child_setup K i cmd oR oW eOk = wire ++ tail ∧
      (∀ a ∈ wire, isPipeAction a = true) ∧
      (∀ a ∈ tail, isPipeAction a = false)) := by
  refine ⟨?_, ?_, ?_, ?_⟩
  · intro j hj h1 h2
    have hmem : ∀ b ∈ ([FdAction.closePipeRead j, FdAction.closePipeWrite j] :
        List FdAction), b ∈ child_setup K i cmd oR oW eOk := by
      intro b hb
      unfold child_setup closeOthers
      simp only [List.append_assoc, List.mem_append, List.mem_flatMap]
      exact Or.inl ⟨j, List.mem_range.mpr hj, by rw [if_pos ⟨h1, h2⟩]; exact hb⟩
    exact ⟨hmem _ (by simp), hmem _ (by simp)⟩
  · intro h0
    refine ⟨closeOthers K i,
      stdoutWiring K i ++ redirAndExec K i cmd oR oW eOk, ?_⟩
    unfold child_setup stdinWiring
    rw [if_pos (Nat.pos_iff_ne_zero.mp h0)]
    simp [List.append_assoc]
  · intro hK1
    refine ⟨closeOthers K i ++ stdinWiring i,
      redirAndExec K i cmd oR oW eOk, ?_⟩
    unfold child_setup stdoutWiring
    rw [if_pos (Nat.ne_of_lt hK1)]
    simp [List.append_assoc]
  · refine ⟨closeOthers K i ++ stdinWiring i ++ stdoutWiring K i,
      redirAndExec K i cmd oR oW eOk, by simp [child_setup, List.append_assoc],
      wiring_all_pipe K i, fun a ha => (redirAndExec_classify K i cmd oR oW eOk a ha).1⟩

/-- C5 witness: in a 4-stage pipeline, the child for stage 1 closes both
ends of pipe 2 (which is adjacent to neither stage 0-1 nor 1-2 wiring of
stage 1). -/
theorem child_pipe_wiring_witness :
    (1 : Nat) < 4 ∧
    FdAction.closePipeRead 2 ∈
      child_setup 4 1 cmdEx (fun _ => true) (fun _ => true) true ∧
    FdAction.closePipeWrite 2 ∈
      child_setup 4 1 cmdEx (fun _ => true) (fun _ => true) true :=
  ⟨by decide,
    ((child_pipe_wiring 4 1 cmdEx (fun _ => true) (fun _ => true) true
        (by decide)).1 2 (by decide) (by decide) (by decide)).1,
    ((child_pipe_wiring 4 1 cmdEx (fun _ => true) (fun _ => true) true
        (by decide)).1 2 (by decide) (by decide) (by decide)).2⟩

/-- C9 (amended): whenever the parser's left-to-right scan reaches a
dangling `<` (resp. `>`) as the final token in operator position,
parsing does not fail: the corresponding redirect path is set to NULL
(overwriting any earlier redirect), and the executor treats a NULL path
as no redirection — its redirect branch performs no file-to-stdin
(resp. file-to-stdout) duplication.  (A trailing operator consumed as
the *filename* of an immediately preceding operator instead becomes the
redirect path itself.) -/
theorem dangling_operator_yields_no_redirect
    (n : Nat) (args : List (List Char)) (inF outF : Option (List Char))
    (K i : Nat) (cmd : Command) (oR oW : List Char → Bool) (eOk : Bool) :
    parseRest [['<']] n args inF outF = (args, none, outF) ∧
    parseRest [['>']] n args inF outF = (args, inF, none) ∧
    (cmd.inputFile = none →
      ∀ fp, FdAction.dupFileToStdin fp ∉ child_setup K i cmd oR oW eOk) ∧
    (cmd.outputFile = none →
      ∀ fp, FdAction.dupFileToStdout fp ∉ child_setup K i cmd oR oW eOk) := by
  refine ⟨rfl, rfl, ?_, ?_⟩
  · intro hin fp hmem
    unfold child_setup at hmem
    rw [List.append_assoc, List.append_assoc] at hmem
    rcases List.mem_append.mp hmem with hw | ht
    · have := wiring_all_pipe K i _ (by
        rw [List.append_assoc]; exact List.mem_append.mpr (Or.inl hw))
      simp [isPipeAction] at this
    · rcases List.mem_append.mp ht with hw | ht2
      · have := wiring_all_pipe K i _ (by
          rw [List.append_assoc]
          exact List.mem_append.mpr (Or.inr (List.mem_append.mpr (Or.inl hw))))
        simp [isPipeAction] at this
      · rcases List.mem_append.mp ht2 with hw | ht3
        · have := wiring_all_pipe K i _ (by
            rw [List.append_assoc]
            exact List.mem_append.mpr (Or.inr (List.mem_append.mpr (Or.inr hw))))
          simp [isPipeAction] at this
        · have := (redirAndExec_classify K i cmd oR oW eOk _ ht3).2.1 hin
          simp [isInputFileDup] at this
  · intro hout fp hmem
    unfold child_setup at hmem
    rw [List.append_assoc, List.append_assoc] at hmem
    rcases List.mem_append.mp hmem with hw | ht
    · have := wiring_all_pipe K i _ (by
        rw [List.append_assoc]; exact List.mem_append.mpr (Or.inl hw))
      simp [isPipeAction] at this
    · rcases List.mem_append.mp ht with hw | ht2
      · have := wiring_all_pipe K i _ (by
          rw [List.append_assoc]
          exact List.mem_append.mpr (Or.inr (List.mem_append.mpr (Or.inl hw))))
        simp [isPipeAction] at this
      · rcases List.mem_append.mp ht2 with hw | ht3
        · have := wiring_all_pipe K i _ (by
            rw [List.append_assoc]
            exact List.mem_append.mpr (Or.inr (List.mem_append.mpr (Or.inr hw))))
          simp [isPipeAction] at this
        · have := (redirAndExec_classify K i cmd oR oW eOk _ ht3).2.2 hout
          simp [isOutputFileDup] at this

/-- C9 amended witness: a dangling `<` scanned in operator position
resets `inputFile` to NULL, and on a stage with no redirects the child
trace never duplicates a file onto stdin. -/
theorem dangling_operator_yields_no_redirect_witness :
    parseRest [['<']] 1 [['a']] (some ['x']) none
      = ([['a']], none, none) ∧
    FdAction.dupFileToStdin ['f'] ∉
      child_setup 2 0 cmdEx (fun _ => true) (fun _ => true) true :=
  ⟨(dangling_operator_yields_no_redirect 1 [['a']] (some ['x']) none
      2 0 cmdEx (fun _ => true) (fun _ => true) true).1,
   (dangling_operator_yields_no_redirect 1 [['a']] (some ['x']) none
      2 0 cmdEx (fun _ => true) (fun _ => true) true).2.2.1 rfl ['f']⟩

/-- `runParent` distributes over trace concatenation. -/
theorem runParent_append (tbl : List Endpoint) (l1 l2 : List ParentAction) :
    runParent tbl (l1 ++ l2) = runParent (runParent tbl l1) l2 :=
  List.foldl_append ..

/-- When every `pipe()` call succeeds, the creation loop emits exactly
the `createPipe` actions for its index range. -/
theorem pipeLoop_ok_trace (pipeOk : Nat → Bool) :
    ∀ (n j : Nat), (pipeLoop pipeOk j n).2 = true →
      (pipeLoop pipeOk j n).1
        = (List.range' j n).map ParentAction.createPipe := by
  intro n
  induction n with
  | zero => intro j _; rfl
  | succ m ih =>
    intro j hok
    by_cases hb : pipeOk j = true
    · simp only [pipeLoop, hb, if_true] at hok ⊢
      rw [List.range'_succ, List.map_cons, ih (j + 1) hok]
    · simp [pipeLoop, hb] at hok

/-- Running the creation actions appends the fresh endpoints, in order,
to the parent's table. -/
theorem runParent_creates :
    ∀ (n j : Nat) (tbl : List Endpoint),
      runParent tbl ((List.range' j n).map ParentAction.createPipe)
        = tbl ++ (List.range' j n).flatMap (fun x => [(x, false), (x, true)]) := by
  intro n
  induction n with
  | zero => intro j tbl; simp [runParent]
  | succ m ih =>
    intro j tbl
    rw [List.range'_succ, List.map_cons]
    show runParent (parentStep tbl (ParentAction.createPipe j)) _ = _
    rw [ih (j + 1) (parentStep tbl (ParentAction.createPipe j))]
    simp [parentStep, List.range'_succ]

/-- Spawning children does not touch the parent's descriptor table. -/
theorem runParent_spawns (l : List Nat) :
    ∀ tbl : List Endpoint,
      runParent tbl (l.map ParentAction.spawnChild) = tbl := by
  induction l with
  | nil => intro tbl; rfl
  | cons x xs ih =>
    intro tbl
    have h1 : parentStep tbl (ParentAction.spawnChild x) = tbl := rfl
    simp only [List.map_cons, runParent, List.foldl_cons, h1]
    exact ih tbl

/-- The close loop removes every endpoint the creation loop added. -/
theorem runParent_closePairs :
    ∀ (n j : Nat),
      runParent ((List.range' j n).flatMap (fun x => [(x, false), (x, true)]))
        ((List.range' j n).flatMap
          (fun x => [ParentAction.closeRead x, ParentAction.closeWrite x]))
        = [] := by
  intro n
  induction n with
  | zero => intro j; rfl
  | succ m ih =>
    intro j
    rw [List.range'_succ, List.flatMap_cons, List.flatMap_cons]
    show runParent _ (ParentAction.closeRead j :: ParentAction.closeWrite j :: _) = _
    have s1 : parentStep
        ((j, false) :: (j, true) ::
          (List.range' (j + 1) m).flatMap (fun x => [(x, false), (x, true)]))
        (ParentAction.closeRead j)
        = (j, true) :: (List.range' (j + 1) m).flatMap
            (fun x => [(x, false), (x, true)]) := by
      simp [parentStep, closeFd]
    have s2 : parentStep
        ((j, true) :: (List.range' (j + 1) m).flatMap
          (fun x => [(x, false), (x, true)]))
        (ParentAction.closeWrite j)
        = (List.range' (j + 1) m).flatMap (fun x => [(x, false), (x, true)]) := by
      simp [parentStep, closeFd]
    calc runParent ((j, false) :: (j, true) ::
            (List.range' (j + 1) m).flatMap (fun x => [(x, false), (x, true)]))
          (ParentAction.closeRead j :: ParentAction.closeWrite j ::
            (List.range' (j + 1) m).flatMap
              (fun x => [ParentAction.closeRead x, ParentAction.closeWrite x]))
        = runParent ((List.range' (j + 1) m).flatMap
            (fun x => [(x, false), (x, true)]))
            ((List.range' (j + 1) m).flatMap
              (fun x => [ParentAction.closeRead x, ParentAction.closeWrite x])) := by
          show runParent (parentStep (parentStep _ _) _) _ = _
          rw [s1, s2]
      _ = [] := ih (j + 1)

/-- `createPipe` actions contain no spawn and no pipe-close. -/
theorem creates_filter (l : List Nat) :
    ((l.map ParentAction.createPipe).filter isSpawn) = [] ∧
    ((l.map ParentAction.createPipe).filter isPipeClose) = [] := by
  induction l with
  | nil => exact ⟨rfl, rfl⟩
  | cons x xs ih => simpa [isSpawn, isPipeClose] using ih

/-- Spawn actions all pass the spawn filter and none the close filter. -/
theorem spawns_filter (l : List Nat) :
    ((l.map ParentAction.spawnChild).filter isSpawn)
      = l.map ParentAction.spawnChild ∧
    ((l.map ParentAction.spawnChild).filter isPipeClose) = [] := by
  induction l with
  | nil => exact ⟨rfl, rfl⟩
  | cons x xs ih => simpa [isSpawn, isPipeClose] using ih

/-- The close loop contains no spawns and exactly `2 * n` close
actions. -/
theorem closes_filter (l : List Nat) :
    (((l.flatMap fun j => [ParentAction.closeRead j, ParentAction.closeWrite j]).filter
        isSpawn) = []) ∧
    (((l.flatMap fun j => [ParentAction.closeRead j, ParentAction.closeWrite j]).filter
        isPipeClose).length = 2 * l.length) := by
  induction l with
  | nil => exact ⟨rfl, rfl⟩
  | cons x xs ih =>
    refine ⟨?_, ?_⟩
    · simpa [isSpawn] using ih.1
    · simp only [List.flatMap_cons, List.cons_append, List.nil_append,
        List.filter_cons,
        show isPipeClose (ParentAction.closeRead x) = true from rfl,
        show isPipeClose (ParentAction.closeWrite x) = true from rfl,
        if_true, List.length_cons, ih.2]
      omega

/-- C6: for a pipeline of `K` stages whose pipe creation succeeds, the
parent trace is exactly: create the `K - 1` pipes, spawn the `K`
children, close all `2·(K-1)` pipe descriptors, free the array, wait.
All closes happen after every spawn and before the wait, exactly `K`
children are spawned, exactly `2·(K-1)` close calls are made, and the
parent's table of open pipe endpoints is empty afterwards. -/
theorem parent_closes_all_pipe_fds (K : Nat) (pipeOk : Nat → Bool)
    (hok : (pipeLoop pipeOk 0 (K - 1)).2 = true) :
    (execute_commands K pipeOk).1
      = (List.range' 0 (K - 1)).map ParentAction.createPipe
        ++ (List.range K).map ParentAction.spawnChild
        ++ (List.range (K - 1)).flatMap
            (fun j => [ParentAction.closeRead j, ParentAction.closeWrite j])
        ++ [ParentAction.freePipes, ParentAction.waitAll] ∧
    (((execute_commands K pipeOk).1).filter isSpawn).length = K ∧
    (((execute_commands K pipeOk).1).filter isPipeClose).length = 2 * (K - 1) ∧
    runParent [] (execute_commands K pipeOk).1 = [] := by
  have htr : (execute_commands K pipeOk).1
      = (List.range' 0 (K - 1)).map ParentAction.createPipe
        ++ (List.range K).map ParentAction.spawnChild
        ++ (List.range (K - 1)).flatMap
            (fun j => [ParentAction.closeRead j, ParentAction.closeWrite j])
        ++ [ParentAction.freePipes, ParentAction.waitAll] := by
    unfold execute_commands
    rw [if_pos hok]
    simp only []
    rw [pipeLoop_ok_trace pipeOk (K - 1) 0 hok]
  refine ⟨htr, ?_, ?_, ?_⟩
  · rw [htr]
    simp only [List.filter_append, List.length_append,
      (creates_filter (List.range' 0 (K - 1))).1,
      (spawns_filter (List.range K)).1, (closes_filter (List.range (K - 1))).1]
    simp [isSpawn]
  · rw [htr]
    simp only [List.filter_append, List.length_append,
      (creates_filter (List.range' 0 (K - 1))).2,
      (spawns_filter (List.range K)).2, (closes_filter (List.range (K - 1))).2]
    simp [isPipeClose]
  · rw [htr, List.range_eq_range' (K - 1) , runParent_append, runParent_append,
      runParent_append, runParent_creates (K - 1) 0 [], runParent_spawns]
    rw [List.nil_append, runParent_closePairs (K - 1) 0]
    rfl

/-- C6 witness: a 3-stage pipeline with all pipe creations succeeding
spawns 3 children and leaves the parent with no open pipe endpoint. -/
theorem parent_closes_all_pipe_fds_witness :
    (pipeLoop (fun _ => true) 0 (3 - 1)).2 = true ∧
    (((execute_commands 3 (fun _ => true)).1).filter isSpawn).length = 3 ∧
    runParent [] (execute_commands 3 (fun _ => true)).1 = [] :=
  ⟨by decide,
    (parent_closes_all_pipe_fds 3 (fun _ => true) (by decide)).2.1,
    (parent_closes_all_pipe_fds 3 (fun _ => true) (by decide)).2.2.2⟩

/-- If some pipe creation in range fails, the loop reports failure, its
trace is creations followed by the report/free/exit suffix, and no other
action occurs. -/
theorem pipeLoop_fail (pipeOk : Nat → Bool) :
    ∀ (n j : Nat), (∃ m, m < n ∧ pipeOk (j + m) = false) →
      (pipeLoop pipeOk j n).2 = false ∧
      ∃ pre, (pipeLoop pipeOk j n).1
          = pre ++ [ParentAction.reportPipeFailure, ParentAction.freePipes,
              ParentAction.exitFailure] ∧
        ∀ a ∈ pre, ∃ jj, a = ParentAction.createPipe jj := by
  intro n
  induction n with
  | zero => intro j ⟨m, hm, _⟩; omega
  | succ nn ih =>
    intro j ⟨m, hm, hfailm⟩
    by_cases hb : pipeOk j = true
    · have hm0 : m ≠ 0 := by
        intro h0; rw [h0, Nat.add_zero] at hfailm; rw [hb] at hfailm; cases hfailm
      obtain ⟨m', rfl⟩ := Nat.exists_eq_succ_of_ne_zero hm0
      have hrec := ih (j + 1) ⟨m', by omega, by
        have : j + 1 + m' = j + (m' + 1) := by omega
        rw [this]; exact hfailm⟩
      obtain ⟨hsnd, pre, hpre, hall⟩ := hrec
      constructor
      · simp only [pipeLoop, hb, if_true]; exact hsnd
      · refine ⟨ParentAction.createPipe j :: pre, ?_, ?_⟩
        · simp only [pipeLoop, hb, if_true, hpre, List.cons_append]
        · intro a ha
          rcases List.mem_cons.mp ha with rfl | ha
          · exact ⟨j, rfl⟩
          · exact hall a ha
    · refine ⟨by simp [pipeLoop, hb], [], by simp [pipeLoop, hb], by simp⟩

/-- C7: if any of the `K - 1` `pipe()` calls fails, the executor aborts
the whole pipeline: no child is ever spawned, the failure is reported,
the pipe array is freed, and the process exits — after which it holds no
pipe descriptor (process termination releases every descriptor,
including the pipes already created).  No partial pipeline is left
running. -/
theorem pipe_failure_aborts_pipeline (K : Nat) (pipeOk : Nat → Bool)
    (j0 : Nat) (hj0 : j0 < K - 1) (hfail : pipeOk j0 = false) :
    (execute_commands K pipeOk).2 = false ∧
    (∀ i, ParentAction.spawnChild i ∉ (execute_commands K pipeOk).1) ∧
    ParentAction.reportPipeFailure ∈ (execute_commands K pipeOk).1 ∧
    ParentAction.freePipes ∈ (execute_commands K pipeOk).1 ∧
    ParentAction.exitFailure ∈ (execute_commands K pipeOk).1 ∧
    runParent [] (execute_commands K pipeOk).1 = [] := by
  obtain ⟨hsnd, pre, hpre, hall⟩ :=
    pipeLoop_fail pipeOk (K - 1) 0 ⟨j0, hj0, by rw [Nat.zero_add]; exact hfail⟩
  have hexec : execute_commands K pipeOk = pipeLoop pipeOk 0 (K - 1) := by
    unfold execute_commands
    rw [if_neg (by rw [hsnd]; exact Bool.false_ne_true)]
  refine ⟨by rw [hexec]; exact hsnd, ?_, ?_, ?_, ?_, ?_⟩
  · intro i hmem
    rw [hexec, hpre] at hmem
    rcases List.mem_append.mp hmem with hmem | hmem
    · obtain ⟨jj, hjj⟩ := hall _ hmem
      cases hjj
    · simp at hmem
  · rw [hexec, hpre]
    exact List.mem_append.mpr (Or.inr (by simp))
  · rw [hexec, hpre]
    exact List.mem_append.mpr (Or.inr (by simp))
  · rw [hexec, hpre]
    exact List.mem_append.mpr (Or.inr (by simp))
  · rw [hexec, hpre, runParent_append]
    rfl

/-- C7 witness: with `pipe()` succeeding only at index 0 in a 3-stage
pipeline, the executor exits without spawning stage 0's child and ends
holding no pipe descriptor. -/
theorem pipe_failure_aborts_pipeline_witness :
    (execute_commands 3 (fun j => decide (j = 0))).2 = false ∧
    ParentAction.spawnChild 0 ∉ (execute_commands 3 (fun j => decide (j = 0))).1 ∧
    ParentAction.exitFailure ∈ (execute_commands 3 (fun j => decide (j = 0))).1 ∧
    runParent [] (execute_commands 3 (fun j => decide (j = 0))).1 = [] :=
  ⟨(pipe_failure_aborts_pipeline 3 (fun j => decide (j = 0)) 1 (by decide)
      (by decide)).1,
   (pipe_failure_aborts_pipeline 3 (fun j => decide (j = 0)) 1 (by decide)
      (by decide)).2.1 0,
   (pipe_failure_aborts_pipeline 3 (fun j => decide (j = 0)) 1 (by decide)
      (by decide)).2.2.2.2.1,
   (pipe_failure_aborts_pipeline 3 (fun j => decide (j = 0)) 1 (by decide)
      (by decide)).2.2.2.2.2⟩

/-- C8: for a stage whose input (resp. output) redirect is set and whose
file opens successfully, the file descriptor is duplicated onto stdin
(resp. stdout) *after* the stage's pipe wiring, so the redirect wins:
the final stdin (resp. stdout) source of the child is the file, not the
upstream (resp. downstream) pipe — even though the pipe duplication did
occur earlier in the trace (conjuncts 3 and 4).  `eOk = true`: the stage
goes on to execute its program. -/
theorem redirect_overrides_pipe (K i : Nat) (cmd : Command)
    (oR oW : List Char → Bool) (p q : List Char) :
    (cmd.inputFile = some p → oR p = true →
      (runChildStd (child_setup K i cmd oR oW true)).1 = StdSrc.file p) ∧
    (cmd.outputFile = some q → oW q = true →
      (inputRedirActs oR cmd.inputFile).2 = true →
      (runChildStd (child_setup K i cmd oR oW true)).2 = StdSrc.file q) ∧
    (0 < i →
      FdAction.dupPipeReadToStdin (i - 1) ∈ child_setup K i cmd oR oW true) ∧
    (i < K - 1 →
      FdAction.dupPipeWriteToStdout i ∈ child_setup K i cmd oR oW true) := by
  refine ⟨?_, ?_, ?_, ?_⟩
  · intro hin hoR
    rcases hout : cmd.outputFile with _ | q2
    · have h1 : redirAndExec K i cmd oR oW true
          = [FdAction.dupFileToStdin p,
             FdAction.execve cmd.command cmd.args] := by
        simp [redirAndExec, inputRedirActs, outputRedirActs, execActs,
          hin, hout, hoR]
      show (List.foldl childStdStep (StdSrc.inherited, StdSrc.inherited)
          (closeOthers K i ++ stdinWiring i ++ stdoutWiring K i
            ++ redirAndExec K i cmd oR oW true)).1 = StdSrc.file p
      rw [h1, List.foldl_append]
      rfl
    · by_cases hq : oW q2 = true
      · have h1 : redirAndExec K i cmd oR oW true
            = [FdAction.dupFileToStdin p, FdAction.dupFileToStdout q2,
               FdAction.execve cmd.command cmd.args] := by
          simp [redirAndExec, inputRedirActs, outputRedirActs, execActs,
            hin, hout, hoR, hq]
        show (List.foldl childStdStep (StdSrc.inherited, StdSrc.inherited)
            (closeOthers K i ++ stdinWiring i ++ stdoutWiring K i
              ++ redirAndExec K i cmd oR oW true)).1 = StdSrc.file p
        rw [h1, List.foldl_append]
        rfl
      · have h1 : redirAndExec K i cmd oR oW true
            = [FdAction.dupFileToStdin p, FdAction.reportOpenFail,
               FdAction.childExitFailure] := by
          simp [redirAndExec, inputRedirActs, outputRedirActs, execActs,
            hin, hout, hoR, hq]
        show (List.foldl childStdStep (StdSrc.inherited, StdSrc.inherited)
            (closeOthers K i ++ stdinWiring i ++ stdoutWiring K i
              ++ redirAndExec K i cmd oR oW true)).1 = StdSrc.file p
        rw [h1, List.foldl_append]
        rfl
  · intro hout hq hin2
    rcases hinv : cmd.inputFile with _ | p2
    · have h1 : redirAndExec K i cmd oR oW true
          = [FdAction.dupFileToStdout q,
             FdAction.execve cmd.command cmd.args] := by
        simp [redirAndExec, inputRedirActs, outputRedirActs, execActs,
          hinv, hout, hq]
      show (List.foldl childStdStep (StdSrc.inherited, StdSrc.inherited)
          (closeOthers K i ++ stdinWiring i ++ stdoutWiring K i
            ++ redirAndExec K i cmd oR oW true)).2 = StdSrc.file q
      rw [h1, List.foldl_append]
      rfl
    · by_cases hp2 : oR p2 = true
      · have h1 : redirAndExec K i cmd oR oW true
            = [FdAction.dupFileToStdin p2, FdAction.dupFileToStdout q,
               FdAction.execve cmd.command cmd.args] := by
          simp [redirAndExec, inputRedirActs, outputRedirActs, execActs,
            hinv, hout, hq, hp2]
        show (List.foldl childStdStep (StdSrc.inherited, StdSrc.inherited)
            (closeOthers K i ++ stdinWiring i ++ stdoutWiring K i
              ++ redirAndExec K i cmd oR oW true)).2 = StdSrc.file q
        rw [h1, List.foldl_append]
        rfl
      · rw [hinv] at hin2
        simp [inputRedirActs, hp2] at hin2
  · intro h0
    unfold child_setup
    simp only [List.append_assoc, List.mem_append]
    refine Or.inr (Or.inl ?_)
    unfold stdinWiring
    rw [if_pos (Nat.pos_iff_ne_zero.mp h0)]
    simp
  · intro hK1
    unfold child_setup
    simp only [List.append_assoc, List.mem_append]
    refine Or.inr (Or.inr (Or.inl ?_))
    unfold stdoutWiring
    rw [if_pos (Nat.ne_of_lt hK1)]
    simp

/-- C8 witness: in a 2-stage pipeline, stage 1 with both redirects set
(and both opens succeeding) ends with stdin and stdout bound to the
files, even though pipe 0's read end was duplicated onto stdin earlier
in its trace. -/
theorem redirect_overrides_pipe_witness :
    (runChildStd (child_setup 2 1 cmdRedir (fun _ => true) (fun _ => true) true)).1
      = StdSrc.file (("in").data) ∧
    (runChildStd (child_setup 2 1 cmdRedir (fun _ => true) (fun _ => true) true)).2
      = StdSrc.file (("out").data) ∧
    FdAction.dupPipeReadToStdin 0 ∈
      child_setup 2 1 cmdRedir (fun _ => true) (fun _ => true) true :=
  ⟨(redirect_overrides_pipe 2 1 cmdRedir (fun _ => true) (fun _ => true)
      (("in").data) (("out").data)).1 rfl rfl,
   (redirect_overrides_pipe 2 1 cmdRedir (fun _ => true) (fun _ => true)
      (("in").data) (("out").data)).2.1 rfl rfl rfl,
   (redirect_overrides_pipe 2 1 cmdRedir (fun _ => true) (fun _ => true)
      (("in").data) (("out").data)).2.2.1 (by decide)⟩

end Minishell
